import Mathlib

/-!
Verification of the InsightFacade query engine: a shallow embedding of the
filter-tree evaluator (`findCourses`), the column projector (`selectColumns`),
the sorter (`rule`), the query orchestrator (`performQuery`) and the dataset
store operations, together with theorems settling the specification claims.

JSON-like values flowing through the untyped TypeScript code are embedded as
the inductive `Json`.  Records hold scalar values (`Value`); numeric record
values are embedded as integers (every numeric example in the spec and in the
claims is integral).  Errors are embedded as `QErr`: the code raises
`InsightError` with a message for each validation failure and the dedicated
`ResultTooLargeError` for the size cap.
-/

/-- A scalar stored in a record: the data model's string-or-number values. -/
inductive Value where
  | str : String → Value
  | num : Int → Value
deriving DecidableEq, Repr

/-- A record: a JS object mapping field names to scalars (keys unique). -/
abbrev Record := List (String × Value)

/-- An output row built by the projector: qualified column name → value. -/
abbrev Row := List (String × Value)

/-- JSON-like dynamic values (`any` in the TypeScript source). -/
inductive Json where
  | obj : List (String × Json) → Json
  | arr : List Json → Json
  | str : String → Json
  | num : Int → Json
  | bool : Bool → Json
  | null : Json

/-- Errors surfaced by the facade: `InsightError msg`, the dedicated
`ResultTooLargeError`, and `NotFoundError` (used by the store). -/
inductive QErr where
  | insight : String → QErr
  | resultTooLarge : QErr
  | notFound : String → QErr
deriving DecidableEq, Repr

/-- `typeof` on an embedded JSON value (objects, arrays and null are all
"object" in JS). -/
def typeOfJson : Json → String
  | .obj _ => "object"
  | .arr _ => "object"
  | .str _ => "string"
  | .num _ => "number"
  | .bool _ => "boolean"
  | .null => "object"

/-- `typeof` on a stored record scalar. -/
def typeOfValue : Value → String
  | .str _ => "string"
  | .num _ => "number"

/-- First-match association lookup on a record (JS object property read). -/
def recordGet (r : Record) (k : String) : Option Value :=
  (r.find? (fun p => p.1 == k)).map (fun p => p.2)

/-- `dataset[i][k]`: the field `k` of the record at index `i`, if both exist. -/
def fieldAt (dataset : List Record) (i : Nat) (k : String) : Option Value :=
  (dataset.get? i).bind (fun r => recordGet r k)

/-- Read a decimal digit run as a number. -/
def digitsToNat : List Char → Nat → Option Nat
  | [], acc => some acc
  | c :: rest, acc =>
      if '0' ≤ c && c ≤ '9' then digitsToNat rest (acc * 10 + (c.toNat - 48))
      else none

/-- Parse a canonical array index (the only property keys under which JS
indexes an array element): digits with no leading zero except `"0"`. -/
def parseIndex : List Char → Option Nat
  | [] => none
  | ['0'] => some 0
  | c :: rest => if c = '0' then none else digitsToNat (c :: rest) 0

/-- Decimal digits of a natural number (fuel-driven so that it reduces). -/
def natToCharsAux : Nat → Nat → List Char
  | 0, _ => []
  | fuel + 1, n =>
      if n < 10 then [Char.ofNat (48 + n)]
      else natToCharsAux fuel (n / 10) ++ [Char.ofNat (48 + n % 10)]

/-- Decimal string of a natural number. -/
def natToStr (n : Nat) : String :=
  String.mk (natToCharsAux (n + 1) n)

/-- Decimal string of an integer. -/
def intToStr (i : Int) : String :=
  if i < 0 then "-" ++ natToStr (-i).toNat else natToStr i.toNat

/-- Property read `j[k]` on a JSON value: objects by key, arrays by canonical
numeric index, strings by character index; `none` is JS `undefined`. -/
def jsonMember : Json → String → Option Json
  | .obj kvs, k => (kvs.find? (fun p => p.1 == k)).map (fun p => p.2)
  | .arr xs, k =>
      match parseIndex k.data with
      | some n => xs.get? n
      | none => none
  | .str s, k =>
      match parseIndex k.data with
      | some n => (s.data.get? n).map (fun c => Json.str (String.mk [c]))
      | none => none
  | _, _ => none

/-- `j[k]`, with JS `undefined` collapsed to `null` (both throw on a further
property access, which is all the embedded code does with them). -/
def jsonMemberD (j : Json) (k : String) : Json :=
  (jsonMember j k).getD Json.null

/-- `Object.keys`: own enumerable keys; throws a `TypeError` on `null` (and
`undefined`), which the facade surfaces wrapped as an `InsightError`. -/
def jsKeys : Json → Except QErr (List String)
  | .obj kvs => .ok (kvs.map (fun p => p.1))
  | .arr xs => .ok ((List.range xs.length).map natToStr)
  | .str s => .ok ((List.range s.data.length).map natToStr)
  | .num _ => .ok []
  | .bool _ => .ok []
  | .null => .error (.insight "Cannot convert undefined or null to object")

/-- Property access `j[k]` used in an expression position: throws on a
`null`/`undefined` receiver, otherwise reads the member. -/
def jsProp (j : Json) (k : String) : Except QErr Json :=
  match j with
  | .null => .error (.insight "Cannot read property of null or undefined")
  | _ => .ok (jsonMemberD j k)

/-- JS `String(x)` coercion, as used by `RegExp.test` and property keys. -/
def jsToStr : Json → String
  | .str s => s
  | .num n => intToStr n
  | .bool b => if b then "true" else "false"
  | .null => "null"
  | .arr xs => String.intercalate "," (xs.attach.map (fun x => jsToStr x.1))
  | .obj _ => "[object Object]"
termination_by j => sizeOf j
decreasing_by
  have := List.sizeOf_lt_of_mem x.2
  simp only [Json.arr.sizeOf_spec]
  omega

/-- `Array.prototype.includes` comparison (SameValueZero): primitives compare
by value; two distinct parsed objects or arrays are reference-unequal. -/
def jsonPrimEq : Json → Json → Bool
  | .str a, .str b => a == b
  | .num a, .num b => a == b
  | .bool a, .bool b => a == b
  | .null, .null => true
  | _, _ => false

/-- Does `JSON.stringify j` contain the character `{`?  (The facade uses this
to tell an empty object from other key-less values.) -/
def jsonHasBrace : Json → Bool
  | .obj _ => true
  | .arr xs => xs.attach.any (fun x => jsonHasBrace x.1)
  | .str s => s.data.contains '{'
  | _ => false
termination_by j => sizeOf j
decreasing_by
  have := List.sizeOf_lt_of_mem x.2
  simp only [Json.arr.sizeOf_spec]
  omega

/-- Split a character list at every occurrence of `sep` (JS `String.split`:
always returns at least one, possibly empty, part). -/
def splitChar (sep : Char) : List Char → List (List Char)
  | [] => [[]]
  | c :: rest =>
      match splitChar sep rest with
      | [] => [[]]
      | p :: ps => if c = sep then [] :: p :: ps else (c :: p) :: ps

/-- `s.split("_")[0]`: the portion of `s` before its first underscore. -/
def splitFirst (s : String) : String :=
  String.mk ((splitChar '_' s.data).headD [])

/-- `s.split("_")[1]`: the portion between the first and second underscore. -/
def splitSecond (s : String) : String :=
  String.mk ((splitChar '_' s.data).getD 1 [])

/-- The qualified-name pattern `/^[^_]+_[^_]+$/`: exactly one underscore with
a non-empty part on each side. -/
def isQualifiedKey (s : String) : Bool :=
  match splitChar '_' s.data with
  | [a, b] => !a.isEmpty && !b.isEmpty
  | _ => false

example : isQualifiedKey "courses_avg" = true := by decide
example : isQualifiedKey "courses__avg" = false := by decide
example : isQualifiedKey "_avg" = false := by decide
example : isQualifiedKey "coursesavg" = false := by decide
example : splitFirst "courses_avg" = "courses" := by decide
example : splitSecond "courses_avg" = "avg" := by decide

/-- Strip one leading `*` if present. -/
def stripLeadStar : List Char → List Char
  | '*' :: rest => rest
  | l => l

/-- The wildcard-shape test `/^\*?[^\*]*\*?$/`: an optional leading `*`, a
star-free middle, an optional trailing `*`. -/
def starShapeValid (v : List Char) : Bool :=
  !(stripLeadStar (stripLeadStar v.reverse).reverse).contains '*'

/-- Match a star-free pattern segment against a same-length piece of input.
In the regex the facade builds, the segment's characters come verbatim from
the query value, so `.` is a single-character wildcard; the generated
patterns contain no other metacharacter apart from the inserted `.*`
(values whose characters include further regex metacharacters such as `(`
or `+` would change or break the JS `RegExp` and are outside this model). -/
def litMatch : List Char → List Char → Bool
  | [], [] => true
  | c :: cs, d :: ds => (c == '.' || c == d) && litMatch cs ds
  | _, _ => false

/-- Match the anchored pattern `^seg1.*seg2.* ... segk$` (the segments being
`value.split("*")` joined by `.*`) against the whole input. -/
def segsMatch : List (List Char) → List Char → Bool
  | [], a => a.isEmpty
  | [s], a => litMatch s a
  | s :: s2 :: rest, a =>
      litMatch s (a.take s.length) &&
        (List.range (a.length - s.length + 1)).any
          (fun k => segsMatch (s2 :: rest) (a.drop (s.length + k)))

/-- The `IS` matcher from `filterCourses`: exact equality when the value has
no `*`; otherwise the value's shape is validated and the anchored regex
`"^" + value.split("*").join(".*") + "$"` is tested against the stored
string.  `none` signals the `InsightError("Invalid regex filter value")`
thrown for a misplaced `*`. -/
def isMatch (v : String) (a : String) : Option Bool :=
  if !v.data.contains '*' then some (a == v)
  else if !starShapeValid v.data then none
  else some (segsMatch (splitChar '*' v.data) a.data)

example : isMatch "cpsc*" "cpsc310" = some true := by decide
example : isMatch "cpsc*" "cpsc" = some true := by decide
example : isMatch "cpsc*" "x-cpsc310" = some false := by decide
example : isMatch "*310" "cpsc310" = some true := by decide
example : isMatch "*310" "cpsc310x" = some false := by decide
example : isMatch "*31*" "cpsc310" = some true := by decide
example : isMatch "a*b*c" "abc" = none := by decide
example : isMatch "**" "anything" = some true := by decide
example : isMatch "cpsc" "cpsc" = some true := by decide
example : isMatch "cpsc" "cpsc310" = some false := by decide
example : isMatch "a.c*" "axcd" = some true := by decide

/-- The character-by-character comparison loop of `InsightFacade.rule` for
strings: first differing code point decides, otherwise the shorter string
comes first. -/
def ruleStr : List Char → List Char → Int
  | [], [] => 0
  | [], _ :: _ => -1
  | _ :: _, [] => 1
  | a :: as, b :: bs =>
      if a.toNat ≠ b.toNat then (if a.toNat > b.toNat then 1 else -1) else ruleStr as bs

/-- `InsightFacade.rule` on two row fields (`undefined` is `none`): strings
compare by the loop above, numbers by magnitude; `a === b` is `0`, larger is
`1`, otherwise `-1`.  A string always compares below a number here, as in JS,
where `NaN`-producing comparisons are `false` (records of one dataset share a
schema, so mixed kinds never reach this in a run of the facade). -/
def rule : Option Value → Option Value → Int
  | some (.str a), some (.str b) => ruleStr a.data b.data
  | some (.str _), _ => -1
  | some (.num a), some (.num b) => if a = b then 0 else if a > b then 1 else -1
  | some (.num _), _ => -1
  | none, none => 0
  | none, _ => -1

/-- The order the spec describes for strings (spec section 4.5): compare by
code-point sequence, a shorter string that is a prefix of a longer one
sorting first. -/
def codePointLe : List Char → List Char → Bool
  | [], _ => true
  | _ :: _, [] => false
  | a :: as, b :: bs =>
      if a.toNat < b.toNat then true
      else if a.toNat = b.toNat then codePointLe as bs
      else false

/-- The ascending order the spec describes for the `ORDER` column (spec
section 4.5): numeric values by magnitude, strings by code-point sequence
with a shorter prefix first. -/
def specLeB (ord : String) (a b : Row) : Bool :=
  match recordGet a ord, recordGet b ord with
  | some (.num x), some (.num y) => x ≤ y
  | some (.str x), some (.str y) => codePointLe x.data y.data
  | _, _ => false

example : ruleStr "a".data "ab".data = -1 := by decide
example : ruleStr "ab".data "b".data = -1 := by decide
example : ruleStr "b".data "a".data = 1 := by decide
example : rule (some (.num 70)) (some (.num 95)) = -1 := by decide

namespace SetUtils

/-- Modelled from the spec: `SetUtils.union` (the `SetUtils` class is not in
the repository snapshot; spec §4.2 defines `OR` as the union of the operand
index sets). -/
def union (l : List (Finset Nat)) : Finset Nat :=
  l.foldl (fun a b => a ∪ b) ∅

/-- Modelled from the spec: `SetUtils.intersecion` (name as in the source's
call site); spec §4.2 defines `AND` as the intersection of the operand index
sets, the caller having ensured the list is non-empty. -/
def intersecion : List (Finset Nat) → Finset Nat
  | [] => ∅
  | s :: rest => rest.foldl (fun a b => a ∩ b) s

/-- Modelled from the spec: `SetUtils.complementary sub all`; spec §4.2
defines `NOT` as the complement against the full index universe. -/
def complementary (sub all : Finset Nat) : Finset Nat :=
  all \ sub

/-- Modelled from the spec: `SetUtils.setFilter`, keeping the members that
satisfy the predicate (spec §4.2: a comparison produces the set of indices
whose record satisfies it). -/
def setFilter (s : Finset Nat) (p : Nat → Bool) : Finset Nat :=
  s.filter (fun i => p i = true)

theorem mem_foldl_union (l : List (Finset Nat)) (acc : Finset Nat) (i : Nat) :
    i ∈ l.foldl (fun a b => a ∪ b) acc ↔ i ∈ acc ∨ ∃ s ∈ l, i ∈ s := by
  induction l generalizing acc with
  | nil => simp
  | cons hd tl ih =>
      simp only [List.foldl_cons, ih, Finset.mem_union, List.mem_cons]
      constructor
      · rintro (⟨h | h⟩ | ⟨s, hs, h⟩)
        · exact Or.inl h
        · exact Or.inr ⟨hd, Or.inl rfl, h⟩
        · exact Or.inr ⟨s, Or.inr hs, h⟩
      · rintro (h | ⟨s, hs | hs, h⟩)
        · exact Or.inl (Or.inl h)
        · exact Or.inl (Or.inr (hs ▸ h))
        · exact Or.inr ⟨s, hs, h⟩

theorem mem_union (l : List (Finset Nat)) (i : Nat) :
    i ∈ union l ↔ ∃ s ∈ l, i ∈ s := by
  simp [union, mem_foldl_union]

theorem mem_foldl_inter (l : List (Finset Nat)) (acc : Finset Nat) (i : Nat) :
    i ∈ l.foldl (fun a b => a ∩ b) acc ↔ i ∈ acc ∧ ∀ s ∈ l, i ∈ s := by
  induction l generalizing acc with
  | nil => simp
  | cons hd tl ih =>
      simp only [List.foldl_cons, ih, Finset.mem_inter, List.mem_cons]
      constructor
      · rintro ⟨⟨ha, hh⟩, htl⟩
        exact ⟨ha, fun s hs => by rcases hs with rfl | hs; exact hh; exact htl s hs⟩
      · rintro ⟨ha, hall⟩
        exact ⟨⟨ha, hall hd (Or.inl rfl)⟩, fun s hs => hall s (Or.inr hs)⟩

theorem mem_intersecion (hd : Finset Nat) (tl : List (Finset Nat)) (i : Nat) :
    i ∈ intersecion (hd :: tl) ↔ ∀ s ∈ hd :: tl, i ∈ s := by
  simp only [intersecion, mem_foldl_inter, List.mem_cons]
  constructor
  · rintro ⟨hh, htl⟩ s (rfl | hs)
    · exact hh
    · exact htl s hs
  · intro h
    exact ⟨h hd (Or.inl rfl), fun s hs => h s (Or.inr hs)⟩

end SetUtils

/-- Modelled from the spec: the `Datasets` store (the `model/Datasets` class
is not in the repository snapshot; spec §4.1: it maps each id to its ordered
record sequence, no two datasets sharing an id). -/
structure Datasets where
  entries : List (String × List Record)
deriving DecidableEq, Repr

/-- Modelled from the spec: does the store hold a dataset with this id? -/
def Datasets.containsDataset (d : Datasets) (id : String) : Bool :=
  d.entries.any (fun p => p.1 == id)

/-- Modelled from the spec: the records of the dataset with this id (the
facade only reads a dataset after checking it is present). -/
def Datasets.getDatasetD (d : Datasets) (id : String) : List Record :=
  ((d.entries.find? (fun p => p.1 == id)).map (fun p => p.2)).getD []

/-- Modelled from the spec: install a dataset under a fresh id. -/
def Datasets.addDataset (d : Datasets) (id : String) (records : List Record) : Datasets :=
  ⟨d.entries ++ [(id, records)]⟩

/-- Modelled from the spec: the ids currently in the store. -/
def Datasets.getIds (d : Datasets) : List String :=
  d.entries.map (fun p => p.1)

/-- The dataset kinds declared by the data model. -/
inductive InsightDatasetKind where
  | Courses : InsightDatasetKind
  | Rooms : InsightDatasetKind
deriving DecidableEq, Repr

/-- `InsightFacade.isIdValid`: the argument is a string (always true in this
embedding), contains no underscore, and has at least one character that is
not a space. -/
def isIdValid (id : String) : Bool :=
  if id.data.contains '_' then false
  else id.data.any (fun c => c ≠ ' ')

example : isIdValid "courses" = true := by decide
example : isIdValid "" = false := by decide
example : isIdValid "a_b" = false := by decide
example : isIdValid "   " = false := by decide
example : isIdValid "\t" = true := by decide

/-- `InsightFacade.addDataset` with ingestion abstracted away: per spec §6
the records arrive already parsed, so the zip-extraction continuation is
represented by the parsed record list; its only observable effect retained
here is the rejection of a content with no course rows.  On success the new
store and the id list are returned; on failure the store is unchanged (no
store is returned). -/
def addDataset (store : Datasets) (id : String) (records : List Record)
    (kind : InsightDatasetKind) : Except QErr (Datasets × List String) :=
  if !isIdValid id then .error (.insight "Field id format not valid")
  else if store.containsDataset id then .error (.insight "Cannot add with duplicated id")
  else if kind ≠ InsightDatasetKind.Courses then
    .error (.insight "Invalid or not implemented dataset kind")
  else if records.length = 0 then
    .error (.insight "The zip must contain at least one course")
  else
    let s := store.addDataset id records
    .ok (s, s.getIds)

/-- `typeof dataset[0][key]` (a missing field reads as `undefined`). -/
def typeOfField : Option Value → String
  | some v => typeOfValue v
  | none => "undefined"

/-- JS string coercion of a field read, as `RegExp.test` applies it. -/
def fieldToStr : Option Value → String
  | some (.str s) => s
  | some (.num n) => intToStr n
  | none => "undefined"

/-- The numeric comparator branch of `filterCourses` (`EQ`/`LT`/`GT` share it
with their own comparison closure, exactly as the source's `mapping`). -/
def numFilter (dataset : List Record) (allCourses : Finset Nat) (key : String)
    (value : Json) (r0 : Record) (cmp : Int → Int → Bool) : Except QErr (Finset Nat) :=
  match value with
  | .num n =>
      if typeOfField (recordGet r0 key) ≠ "number" then
        .error (.insight "Filter content type not match")
      else
        .ok (SetUtils.setFilter allCourses (fun i =>
          match fieldAt dataset i key with
          | some (.num a) => cmp a n
          | _ => false))
  | _ => .error (.insight "Filter content type not valid")

/-- `InsightFacade.filterCourses`: checks the field against the first
record's keys, dispatches on the comparator with its type checks, and keeps
the indices whose record satisfies the comparison.  An empty dataset makes
the JS `Object.keys(dataset[0])` throw a `TypeError`.  The `IS` lambda
throws `"Invalid regex filter value"` from inside the filter loop on a
misplaced `*`, so with a non-empty index set (always the case when reached
from `findCourses`) the error surfaces before any index is kept. -/
def filterCourses (dataset : List Record) (allCourses : Finset Nat) (key : String)
    (value : Json) (comparator : String) : Except QErr (Finset Nat) :=
  match dataset with
  | [] => .error (.insight "Cannot convert undefined or null to object")
  | r0 :: _ =>
    if !(r0.map (fun p => p.1)).contains key then
      .error (.insight "Key in filter content not found in dataset")
    else if comparator = "IS" then
      match value with
      | .str v =>
          if typeOfField (recordGet r0 key) ≠ "string" then
            .error (.insight "Filter content type not match")
          else if !v.data.contains '*' then
            .ok (SetUtils.setFilter allCourses (fun i =>
              match fieldAt dataset i key with
              | some (.str a) => a == v
              | _ => false))
          else if !starShapeValid v.data then
            if allCourses = ∅ then .ok ∅
            else .error (.insight "Invalid regex filter value")
          else
            .ok (SetUtils.setFilter allCourses (fun i =>
              segsMatch (splitChar '*' v.data) (fieldToStr (fieldAt dataset i key)).data))
      | _ => .error (.insight "Filter content type not valid")
    else if comparator = "EQ" then
      numFilter dataset allCourses key value r0 (fun a b => a == b)
    else if comparator = "LT" then
      numFilter dataset allCourses key value r0 (fun a b => a < b)
    else if comparator = "GT" then
      numFilter dataset allCourses key value r0 (fun a b => a > b)
    else .error (.insight "Invalid comparator")

/-- The comparison arm of `findCourses` (source lines: the non-`NOT`,
non-array filter content): exactly one key, matching the qualified-name
pattern, targeting the query's dataset; then `filterCourses` runs on the
local field name. -/
def comparisonPath (dataset : List Record) (allCourses : Finset Nat) (id : String)
    (comparator : String) (content : Json) : Except QErr (Finset Nat) :=
  match jsKeys content with
  | .error e => .error e
  | .ok ckeys =>
    if ckeys.length ≠ 1 then
      .error (.insight "Filter content should have one and only one key")
    else
      let contentKey := ckeys.headD ""
      let contentValue := jsonMemberD content contentKey
      if !isQualifiedKey contentKey then
        .error (.insight "Invalid key format in filter content")
      else if splitFirst contentKey ≠ id then
        .error (.insight "Cannot query from two datasets")
      else filterCourses dataset allCourses (splitSecond contentKey) contentValue comparator

mutual

/-- `InsightFacade.findCourses`, case-split over the possible shapes of the
dynamic `filter` value.  A key-less value returns all indices when it is a
real object (its serialization contains `{`) and fails otherwise; more than
one key fails; with a single key, an array value runs the logical branch
(recursing on the operands, requiring at least one, then dispatching on
`OR`/`AND`), `NOT` complements its operand's result against the full index
universe, and anything else runs the comparison arm.  The non-object cases
spell out what `Object.keys`/indexing yield on those values: a one-element
array or one-character string has the single key `"0"`, whose content path
or logical branch always ends in an error. -/
def findCourses (dataset : List Record) (id : String) : Json → Except QErr (Finset Nat)
  | .null => .error (.insight "Cannot convert undefined or null to object")
  | .num n =>
      if jsonHasBrace (.num n) then .ok (Finset.range dataset.length)
      else .error (.insight "WHERE must be an object")
  | .bool b =>
      if jsonHasBrace (.bool b) then .ok (Finset.range dataset.length)
      else .error (.insight "WHERE must be an object")
  | .str s =>
      if s.data.length = 0 then
        if jsonHasBrace (.str s) then .ok (Finset.range dataset.length)
        else .error (.insight "WHERE must be an object")
      else if s.data.length = 1 then
        -- one key, "0"; its content is the one-character string itself
        comparisonPath dataset (Finset.range dataset.length) id "0" (jsonMemberD (.str s) "0")
      else .error (.insight "There cannot be more than one object in filter")
  | .obj [] =>
      if jsonHasBrace (.obj []) then .ok (Finset.range dataset.length)
      else .error (.insight "WHERE must be an object")
  | .obj [(comparator, .arr ops)] =>
      match findCoursesList dataset id ops with
      | .error e => .error e
      | .ok subSets =>
        if subSets.length = 0 then
          .error (.insight "AND and OR must have at least one element")
        else if comparator = "OR" then .ok (SetUtils.union subSets)
        else if comparator = "AND" then .ok (SetUtils.intersecion subSets)
        else .error (.insight "Invalid comparator when finding courses")
  | .obj [(comparator, content)] =>
      -- reached only when `content` is not an array (the previous case)
      if comparator = "NOT" then
        match findCourses dataset id content with
        | .error e => .error e
        | .ok s => .ok (SetUtils.complementary s (Finset.range dataset.length))
      else comparisonPath dataset (Finset.range dataset.length) id comparator content
  | .obj (_ :: _ :: _) => .error (.insight "There cannot be more than one object in filter")
  | .arr [] =>
      if jsonHasBrace (.arr []) then .ok (Finset.range dataset.length)
      else .error (.insight "WHERE must be an object")
  | .arr [.arr ys] =>
      match findCoursesList dataset id ys with
      | .error e => .error e
      | .ok subSets =>
        if subSets.length = 0 then
          .error (.insight "AND and OR must have at least one element")
        else .error (.insight "Invalid comparator when finding courses")
  | .arr [x] => comparisonPath dataset (Finset.range dataset.length) id "0" x
  | .arr (_ :: _ :: _) => .error (.insight "There cannot be more than one object in filter")
termination_by j => sizeOf j

/-- The operand loop of the logical branch: evaluate each sub-filter in
order, propagating the first error. -/
def findCoursesList (dataset : List Record) (id : String) :
    List Json → Except QErr (List (Finset Nat))
  | [] => .ok []
  | f :: fs =>
      match findCourses dataset id f with
      | .error e => .error e
      | .ok s =>
        match findCoursesList dataset id fs with
        | .error e => .error e
        | .ok rest => .ok (s :: rest)
termination_by l => sizeOf l

end

deriving instance DecidableEq for Except

/-- `for ... of` iteration: arrays yield their elements, strings their
characters; other values are not iterable and make JS throw a `TypeError`. -/
def jsIterate : Json → Except QErr (List Json)
  | .arr xs => .ok xs
  | .str s => .ok (s.data.map (fun c => Json.str (String.mk [c])))
  | _ => .error (.insight "is not iterable")

/-- The validation loop of `selectColumns`: every column must match the
qualified-name pattern (the regex test coercing its argument to a string)
and target the resolved dataset id (`split` throwing on a non-string). -/
def validateColumns (id : String) : List Json → Except QErr Unit
  | [] => .ok ()
  | c :: rest =>
      if !isQualifiedKey (jsToStr c) then .error (.insight "Invalid key format in columns")
      else
        match c with
        | .str s =>
            if splitFirst s ≠ id then .error (.insight "Cannot query from two datasets")
            else validateColumns id rest
        | _ => .error (.insight "split is not a function")

/-- The inner loop of `selectColumns` building one output row: each column's
local field is looked up in the record and missing fields fail the query. -/
def buildRowFields (r : Record) : List Json → Except QErr Row
  | [] => .ok []
  | c :: rest =>
      match c with
      | .str s =>
          match recordGet r (splitSecond s) with
          | some v =>
              match buildRowFields r rest with
              | .error e => .error e
              | .ok row => .ok ((s, v) :: row)
          | none => .error (.insight ("Key in columns not exists in dataset: " ++ s))
      | _ => .error (.insight "split is not a function")

/-- One output row for the record at `course` (an index outside the dataset
would make the JS property reads throw). -/
def buildRow (records : List Record) (columns : List Json) (course : Nat) : Except QErr Row :=
  match records.get? course with
  | none => .error (.insight "Cannot convert undefined or null to object")
  | some r => buildRowFields r columns

/-- The outer loop of `selectColumns` over the candidate indices. -/
def buildRows (records : List Record) (columns : List Json) :
    List Nat → Except QErr (List Row)
  | [] => .ok []
  | i :: rest =>
      match buildRow records columns i with
      | .error e => .error e
      | .ok row =>
          match buildRows records columns rest with
          | .error e => .error e
          | .ok rows => .ok (row :: rows)

/-- `InsightFacade.selectColumns`: validate every column first, then build
one row per candidate index.  The JS `Set` iterates in insertion order;
with the set utilities modelled from the spec as plain index sets that
order is not represented, and the projector iterates the indices in
increasing order (every claim about the output is either order-independent
or concerns the explicitly sorted result).  Every candidate set the
evaluator produces is a subset of the dataset's index range, which the
enumeration below ranges over. -/
def selectColumns (records : List Record) (courseSet : Finset Nat) (cols : Json)
    (id : String) : Except QErr (List Row) :=
  match jsIterate cols with
  | .error e => .error e
  | .ok columns =>
    match validateColumns id columns with
    | .error e => .error e
    | .ok _ =>
        buildRows records columns
          ((List.range records.length).filter (fun i => i ∈ courseSet))

/-- Is `needle` an initial run of `hay`? -/
def leadMatch : List Char → List Char → Bool
  | [], _ => true
  | _ :: _, [] => false
  | a :: as, b :: bs => a == b && leadMatch as bs

/-- `Array.prototype.includes` (SameValueZero membership); on a string the
JS method checks for a substring instead, and other receivers throw. -/
def jsIncludes : Json → Json → Except QErr Bool
  | .arr xs, x => .ok (xs.any (fun e => jsonPrimEq e x))
  | .str s, x =>
      match x with
      | .str t =>
          .ok ((List.range (s.data.length + 1)).any (fun k => leadMatch t.data (s.data.drop k)))
      | _ => .ok false
  | _, _ => .error (.insight "includes is not a function")

/-- The comparator handed to `results.sort`: ascending by the `ORDER`
column under `InsightFacade.rule`. -/
def rowLe (ord : String) (a b : Row) : Bool :=
  rule (recordGet a ord) (recordGet b ord) ≤ 0

/-- Insert into a sorted run, before the first element not below `a`. -/
def insertSorted (le : Row → Row → Bool) (a : Row) : List Row → List Row
  | [] => [a]
  | b :: bs => if le a b then a :: b :: bs else b :: insertSorted le a bs

/-- `Array.prototype.sort` with a comparator: the ECMAScript contract is a
permutation of the input ordered by the comparator (for a consistent
comparator), which this stable insertion sort realizes. -/
def sortRows (le : Row → Row → Bool) : List Row → List Row
  | [] => []
  | a :: as => insertSorted le a (sortRows le as)

/-- `InsightFacade.performQuery`: top-level key-set check, dataset id
resolution from the first column, the evaluator, the projector, the
`OPTIONS` key-set/`ORDER` validation with the sort, and the 5000-row cap. -/
def performQuery (store : Datasets) (query : Json) : Except QErr (List Row) :=
  match jsKeys query with
  | .error e => .error e
  | .ok queryKeys =>
    if !(queryKeys.length = 2 && queryKeys.contains "OPTIONS" && queryKeys.contains "WHERE") then
      .error (.insight "JSON has more keys than excepted")
    else
      match jsProp query "OPTIONS" with
      | .error e => .error e
      | .ok options =>
      match jsProp options "COLUMNS" with
      | .error e => .error e
      | .ok cols =>
      match jsProp cols "0" with
      | .error e => .error e
      | .ok c0 =>
      match c0 with
      | .str c0s =>
        let id := splitFirst c0s
        if !store.containsDataset id then .error (.insight "Dataset not exists")
        else
          let records := store.getDatasetD id
          match findCourses records id (jsonMemberD query "WHERE") with
          | .error e => .error e
          | .ok courseSet =>
          match selectColumns records courseSet cols id with
          | .error e => .error e
          | .ok results =>
          match jsKeys options with
          | .error e => .error e
          | .ok optionKeys =>
            if optionKeys.contains "ORDER" then
              if optionKeys.length > 2 then .error (.insight "Invalid key in column")
              else
                let ord := jsonMemberD options "ORDER"
                match jsIncludes cols ord with
                | .error e => .error e
                | .ok mem =>
                  if !mem then .error (.insight "Value of ORDER not exists in COLUMNS")
                  else
                    let sorted := sortRows (rowLe (jsToStr ord)) results
                    if sorted.length > 5000 then .error .resultTooLarge else .ok sorted
            else if optionKeys.length > 1 then .error (.insight "Invalid key in column")
            else if results.length > 5000 then .error .resultTooLarge
            else .ok results
      | _ => .error (.insight "split is not a function")

/-- Concrete two-record dataset used by witnesses. -/
def recsW : List Record := [[("dept", Value.str "a")], [("dept", Value.str "b")]]

/-- Concrete three-record dataset (the spec's `[95, 70, 90]` example). -/
def recsAvg : List Record :=
  [[("dept", Value.str "a"), ("avg", Value.num 95)],
   [("dept", Value.str "b"), ("avg", Value.num 70)],
   [("dept", Value.str "c"), ("avg", Value.num 90)]]

/-- A store holding `recsAvg` under the id `courses`. -/
def storeW : Datasets := ⟨[("courses", recsAvg)]⟩

/-- One-record dataset whose `dept` is the string `axcd`. -/
def recsDot : List Record := [[("dept", Value.str "axcd")]]

/-- A store with no datasets. -/
def storeEmpty : Datasets := ⟨[]⟩

/-- A well-formed column entry for dataset `id`: a string matching the
qualified-name pattern whose dataset segment is `id`. -/
def goodCol (id : String) (c : Json) : Prop :=
  ∃ s, c = Json.str s ∧ isQualifiedKey s = true ∧ splitFirst s = id

theorem filterCourses_zero_error (dataset : List Record) (allCourses : Finset Nat)
    (key : String) (value : Json) :
    ∃ e, filterCourses dataset allCourses key value "0" = .error e := by
  cases dataset with
  | nil => exact ⟨_, rfl⟩
  | cons r0 tl =>
      simp only [filterCourses]
      norm_num
      split
      · exact ⟨_, rfl⟩
      · exact ⟨_, rfl⟩

theorem comparisonPath_zero_error (dataset : List Record) (allCourses : Finset Nat)
    (id : String) (content : Json) :
    ∃ e, comparisonPath dataset allCourses id "0" content = .error e := by
  unfold comparisonPath
  split
  · exact ⟨_, rfl⟩
  · split
    · exact ⟨_, rfl⟩
    · dsimp only
      split
      · exact ⟨_, rfl⟩
      · split
        · exact ⟨_, rfl⟩
        · exact filterCourses_zero_error ..

theorem findCourses_arr_error (dataset : List Record) (id : String) (xs : List Json) :
    ∃ e, findCourses dataset id (.arr xs) = .error e := by
  cases xs with
  | nil => exact ⟨.insight "WHERE must be an object", by simp [findCourses, jsonHasBrace]⟩
  | cons x rest =>
    cases rest with
    | cons y t =>
        exact ⟨.insight "There cannot be more than one object in filter",
          by simp [findCourses]⟩
    | nil =>
      cases x with
      | arr ys =>
          cases h : findCoursesList dataset id ys with
          | error e => exact ⟨e, by simp [findCourses, jsonHasBrace, h]⟩
          | ok subSets =>
              refine ⟨?_, ?_⟩
              case _ => exact if subSets.length = 0 then
                  QErr.insight "AND and OR must have at least one element"
                else QErr.insight "Invalid comparator when finding courses"
              simp only [findCourses, h]
              split
              · simp_all
              · simp_all
      | obj kvs =>
          obtain ⟨e, he⟩ := comparisonPath_zero_error dataset (Finset.range dataset.length) id (.obj kvs)
          exact ⟨e, by simp [findCourses, jsonHasBrace, he]⟩
      | str s =>
          obtain ⟨e, he⟩ := comparisonPath_zero_error dataset (Finset.range dataset.length) id (.str s)
          exact ⟨e, by simp [findCourses, jsonHasBrace, he]⟩
      | num n =>
          obtain ⟨e, he⟩ := comparisonPath_zero_error dataset (Finset.range dataset.length) id (.num n)
          exact ⟨e, by simp [findCourses, jsonHasBrace, he]⟩
      | bool b =>
          obtain ⟨e, he⟩ := comparisonPath_zero_error dataset (Finset.range dataset.length) id (.bool b)
          exact ⟨e, by simp [findCourses, jsonHasBrace, he]⟩
      | null =>
          obtain ⟨e, he⟩ := comparisonPath_zero_error dataset (Finset.range dataset.length) id .null
          exact ⟨e, by simp [findCourses, jsonHasBrace, he]⟩

theorem findCoursesList_length (dataset : List Record) (id : String) :
    ∀ ops sets, findCoursesList dataset id ops = .ok sets → sets.length = ops.length := by
  intro ops
  induction ops with
  | nil =>
      intro sets h
      simp only [findCoursesList] at h
      cases h
      rfl
  | cons f fs ih =>
      intro sets h
      simp only [findCoursesList] at h
      cases hf : findCourses dataset id f with
      | error e => rw [hf] at h; cases h
      | ok s =>
          rw [hf] at h
          cases hr : findCoursesList dataset id fs with
          | error e => rw [hr] at h; cases h
          | ok rest =>
              rw [hr] at h
              cases h
              simp [ih rest hr]

/-- C1: for every loaded dataset and non-empty operand sequence whose members
evaluate to index sets, `Logical{AND, ops}` evaluates to exactly the
intersection of those sets, `Logical{OR, ops}` to exactly their union, and
for every filter `f` evaluating to an index set, `Negation{f}` evaluates to
exactly its complement against the full index universe `0..n-1`. -/
theorem C1_logical_operators (dataset : List Record) (id : String) :
    (∀ ops sets, ops ≠ [] → findCoursesList dataset id ops = .ok sets →
      (∃ r, findCourses dataset id (.obj [("AND", .arr ops)]) = .ok r ∧
        ∀ i, i ∈ r ↔ ∀ s ∈ sets, i ∈ s) ∧
      (∃ r, findCourses dataset id (.obj [("OR", .arr ops)]) = .ok r ∧
        ∀ i, i ∈ r ↔ ∃ s ∈ sets, i ∈ s)) ∧
    (∀ f sf, findCourses dataset id f = .ok sf →
      ∃ r, findCourses dataset id (.obj [("NOT", f)]) = .ok r ∧
        ∀ i, i ∈ r ↔ (i < dataset.length ∧ i ∉ sf)) := by
  constructor
  · intro ops sets hne hok
    have hlen := findCoursesList_length dataset id ops sets hok
    have hsne : sets ≠ [] := by
      intro hempty
      apply hne
      cases ops with
      | nil => rfl
      | cons a b => subst hempty; simp at hlen
    obtain ⟨s0, tl, rfl⟩ : ∃ s0 tl, sets = s0 :: tl := by
      cases sets with
      | nil => exact absurd rfl hsne
      | cons a b => exact ⟨a, b, rfl⟩
    constructor
    · refine ⟨SetUtils.intersecion (s0 :: tl), ?_, ?_⟩
      · simp [findCourses, jsonHasBrace, hok]
      · intro i
        exact SetUtils.mem_intersecion s0 tl i
    · refine ⟨SetUtils.union (s0 :: tl), ?_, ?_⟩
      · simp [findCourses, jsonHasBrace, hok]
      · intro i
        exact SetUtils.mem_union (s0 :: tl) i
  · intro f sf hok
    cases f with
    | arr xs =>
        obtain ⟨e, he⟩ := findCourses_arr_error dataset id xs
        rw [hok] at he
        cases he
    | obj kvs =>
        refine ⟨SetUtils.complementary sf (Finset.range dataset.length),
          by simp [findCourses, jsonHasBrace, hok], ?_⟩
        intro i
        simp [SetUtils.complementary, Finset.mem_sdiff, Finset.mem_range]
    | str s =>
        refine ⟨SetUtils.complementary sf (Finset.range dataset.length),
          by simp [findCourses, jsonHasBrace, hok], ?_⟩
        intro i
        simp [SetUtils.complementary, Finset.mem_sdiff, Finset.mem_range]
    | num n =>
        refine ⟨SetUtils.complementary sf (Finset.range dataset.length),
          by simp [findCourses, jsonHasBrace, hok], ?_⟩
        intro i
        simp [SetUtils.complementary, Finset.mem_sdiff, Finset.mem_range]
    | bool b =>
        refine ⟨SetUtils.complementary sf (Finset.range dataset.length),
          by simp [findCourses, jsonHasBrace, hok], ?_⟩
        intro i
        simp [SetUtils.complementary, Finset.mem_sdiff, Finset.mem_range]
    | null =>
        refine ⟨SetUtils.complementary sf (Finset.range dataset.length),
          by simp [findCourses, jsonHasBrace, hok], ?_⟩
        intro i
        simp [SetUtils.complementary, Finset.mem_sdiff, Finset.mem_range]

/-- Witness for C1 at a concrete two-record dataset: `AND`/`OR` over two
empty-object operands and `NOT` over an empty-object operand. -/
theorem C1_logical_operators_witness :
    ((∃ r, findCourses recsW "courses" (.obj [("AND", .arr [.obj [], .obj []])]) = .ok r ∧
        ∀ i, i ∈ r ↔ ∀ s ∈ [Finset.range 2, Finset.range 2], i ∈ s) ∧
     (∃ r, findCourses recsW "courses" (.obj [("OR", .arr [.obj [], .obj []])]) = .ok r ∧
        ∀ i, i ∈ r ↔ ∃ s ∈ [Finset.range 2, Finset.range 2], i ∈ s)) ∧
    (∃ r, findCourses recsW "courses" (.obj [("NOT", .obj [])]) = .ok r ∧
        ∀ i, i ∈ r ↔ (i < 2 ∧ i ∉ Finset.range 2)) := by
  have h := C1_logical_operators recsW "courses"
  have hlist : findCoursesList recsW "courses" [.obj [], .obj []] =
      .ok [Finset.range 2, Finset.range 2] := by
    simp [findCoursesList, findCourses, jsonHasBrace, recsW]
  have hone : findCourses recsW "courses" (.obj []) = .ok (Finset.range 2) := by
    simp [findCourses, jsonHasBrace, recsW]
  refine ⟨h.1 [.obj [], .obj []] [Finset.range 2, Finset.range 2] (by simp) hlist, ?_⟩
  have hN := h.2 (.obj []) (Finset.range 2) hone
  simpa [recsW] using hN

/-- C2: the empty filter object evaluates to all indices `0..n-1`, both as
the top-level `WHERE` and nested as an operand of `AND`/`OR` (where it is a
match-all branch, not an error); a key-less `WHERE` node that is not a
proper object (an empty array, empty string, number or boolean) fails with
`InsightError("WHERE must be an object")`. -/
theorem C2_empty_filter (dataset : List Record) (id : String) :
    (findCourses dataset id (.obj []) = .ok (Finset.range dataset.length)) ∧
    (∀ ops sets, findCoursesList dataset id ops = .ok sets →
      (∃ r, findCourses dataset id (.obj [("AND", .arr (Json.obj [] :: ops))]) = .ok r ∧
        ∀ i, i ∈ r ↔ (i < dataset.length ∧ ∀ s ∈ sets, i ∈ s)) ∧
      (∃ r, findCourses dataset id (.obj [("OR", .arr (Json.obj [] :: ops))]) = .ok r ∧
        ∀ i, i ∈ r ↔ (i < dataset.length ∨ ∃ s ∈ sets, i ∈ s))) ∧
    (∀ f, jsKeys f = .ok [] → f ≠ .obj [] →
      findCourses dataset id f = .error (.insight "WHERE must be an object")) := by
  refine ⟨by simp [findCourses, jsonHasBrace], ?_, ?_⟩
  · intro ops sets hok
    have hlist : findCoursesList dataset id (Json.obj [] :: ops) =
        .ok (Finset.range dataset.length :: sets) := by
      simp [findCoursesList, findCourses, jsonHasBrace, hok]
    constructor
    · refine ⟨SetUtils.intersecion (Finset.range dataset.length :: sets), ?_, ?_⟩
      · simp [findCourses, jsonHasBrace, hlist]
      · intro i
        rw [SetUtils.mem_intersecion]
        simp only [List.mem_cons]
        constructor
        · intro h
          exact ⟨Finset.mem_range.mp (h _ (Or.inl rfl)), fun s hs => h s (Or.inr hs)⟩
        · rintro ⟨hlt, hall⟩ s (rfl | hs)
          · exact Finset.mem_range.mpr hlt
          · exact hall s hs
    · refine ⟨SetUtils.union (Finset.range dataset.length :: sets), ?_, ?_⟩
      · simp [findCourses, jsonHasBrace, hlist]
      · intro i
        rw [SetUtils.mem_union]
        simp only [List.mem_cons]
        constructor
        · rintro ⟨s, rfl | hs, h⟩
          · exact Or.inl (Finset.mem_range.mp h)
          · exact Or.inr ⟨s, hs, h⟩
        · rintro (h | ⟨s, hs, h⟩)
          · exact ⟨_, Or.inl rfl, Finset.mem_range.mpr h⟩
          · exact ⟨s, Or.inr hs, h⟩
  · intro f hk hne
    cases f with
    | obj kvs =>
        cases kvs with
        | nil => exact absurd rfl hne
        | cons a b => simp [jsKeys] at hk
    | arr xs =>
        cases xs with
        | nil => simp [findCourses, jsonHasBrace]
        | cons a b => simp [jsKeys] at hk
    | str s =>
        have hlen : s.data.length = 0 := by
          simpa [jsKeys, List.map_eq_nil_iff, List.range_eq_nil] using hk
        have hdata : s.data = [] := List.length_eq_zero.mp hlen
        simp [findCourses, jsonHasBrace, hlen, hdata]
    | num n => simp [findCourses, jsonHasBrace]
    | bool b => simp [findCourses, jsonHasBrace]
    | null => simp [jsKeys] at hk

/-- Witness for C2 at a concrete two-record dataset: the empty `WHERE`, the
empty object nested in `AND`/`OR` beside a second operand, and the empty
array as `WHERE`. -/
theorem C2_empty_filter_witness :
    (findCourses recsW "courses" (.obj []) = .ok (Finset.range recsW.length)) ∧
    ((∃ r, findCourses recsW "courses" (.obj [("AND", .arr [Json.obj [], Json.obj []])]) = .ok r ∧
        ∀ i, i ∈ r ↔ (i < recsW.length ∧ ∀ s ∈ [Finset.range 2], i ∈ s)) ∧
     (∃ r, findCourses recsW "courses" (.obj [("OR", .arr [Json.obj [], Json.obj []])]) = .ok r ∧
        ∀ i, i ∈ r ↔ (i < recsW.length ∨ ∃ s ∈ [Finset.range 2], i ∈ s))) ∧
    (findCourses recsW "courses" (.arr []) = .error (.insight "WHERE must be an object")) := by
  have h := C2_empty_filter recsW "courses"
  have hlist : findCoursesList recsW "courses" [Json.obj []] = .ok [Finset.range 2] := by
    simp [findCoursesList, findCourses, jsonHasBrace, recsW]
  exact ⟨h.1, h.2.1 [Json.obj []] [Finset.range 2] hlist,
    h.2.2 (.arr []) (by simp [jsKeys]) (by simp)⟩

/-- C3 (code-bug exhibit): for the `IS` value `"a.c*"` — a valid wildcard
shape whose literal characters per the spec are `a.c` — the evaluator
matches the stored string `"axcd"` (index `0` is kept), because the facade
compiles the unescaped value into a `RegExp`, where `.` matches any
character; yet `"axcd"` does not start with the literal run `a.c`, so a
literal anchored prefix match, as the claim requires, would reject it. -/
theorem C3_wildcard_dot_code_bug :
    findCourses recsDot "courses" (.obj [("IS", .obj [("courses_dept", .str "a.c*")])]) =
      .ok {0} ∧
    leadMatch "a.c".data "axcd".data = false := by
  constructor
  · simp [findCourses, jsonHasBrace, comparisonPath, jsKeys, jsonMemberD, jsonMember, parseIndex,
      digitsToNat, filterCourses, typeOfField, recordGet, typeOfValue, SetUtils.setFilter,
      fieldAt, recsDot, starShapeValid, stripLeadStar, splitChar, segsMatch, litMatch,
      isQualifiedKey, splitFirst, splitSecond, fieldToStr]
    decide
  · decide

/-- C9 counterexample: the id `"\t"` consists only of whitespace (it trims
to the empty string), yet `addDataset` accepts it — the validity check only
rejects ids whose every character is a space — so the claim's
`InvalidIdError` for every all-whitespace id fails on the code. -/
theorem C9_whitespace_id_counterexample :
    addDataset storeEmpty "\t" [[("dept", Value.str "a")]] InsightDatasetKind.Courses =
      .ok (⟨[("\t", [[("dept", Value.str "a")]])]⟩, ["\t"]) := by
  decide

/-- C9 (amended): `addDataset` fails with the invalid-id error for every id
that contains an underscore or consists only of space characters (the code
checks spaces, not general whitespace), fails with the duplicate error when
a valid id is already present, and succeeds only for valid ids absent from
the store. -/
theorem C9_add_id_validation (store : Datasets) (id : String) (records : List Record)
    (kind : InsightDatasetKind) :
    ((id.data.contains '_' = true ∨ id.data.all (fun c => c = ' ') = true) →
      addDataset store id records kind = .error (.insight "Field id format not valid")) ∧
    (isIdValid id = true → store.containsDataset id = true →
      addDataset store id records kind = .error (.insight "Cannot add with duplicated id")) ∧
    (∀ s out, addDataset store id records kind = .ok (s, out) →
      isIdValid id = true ∧ store.containsDataset id = false) := by
  refine ⟨?_, ?_, ?_⟩
  · intro h
    have hinv : isIdValid id = false := by
      simp only [isIdValid]
      split
      · rfl
      · rw [List.any_eq_false]
        intro c hc
        rcases h with h | h
        · simp_all
        · have := (List.all_eq_true.mp h) c hc
          simp_all
    simp [addDataset, hinv]
  · intro hvalid hdup
    simp [addDataset, hvalid, hdup]
  · intro s out hok
    by_cases h1 : isIdValid id
    · by_cases h2 : store.containsDataset id
      · simp [addDataset, h1, h2] at hok
      · exact ⟨h1, by simpa using h2⟩
    · simp [addDataset, h1] at hok

/-- Witness for C9 (amended) at concrete inputs: `"a_b"` and `""` are
rejected as invalid ids, and adding `"courses"` to a store already holding
it fails as a duplicate. -/
theorem C9_add_id_validation_witness :
    (addDataset storeEmpty "a_b" [[("dept", Value.str "a")]] InsightDatasetKind.Courses =
      .error (.insight "Field id format not valid")) ∧
    (addDataset storeEmpty "" [[("dept", Value.str "a")]] InsightDatasetKind.Courses =
      .error (.insight "Field id format not valid")) ∧
    (addDataset storeW "courses" [[("dept", Value.str "a")]] InsightDatasetKind.Courses =
      .error (.insight "Cannot add with duplicated id")) := by
  refine ⟨?_, ?_, ?_⟩
  · exact (C9_add_id_validation storeEmpty "a_b" [[("dept", Value.str "a")]]
      InsightDatasetKind.Courses).1 (Or.inl (by decide))
  · exact (C9_add_id_validation storeEmpty "" [[("dept", Value.str "a")]]
      InsightDatasetKind.Courses).1 (Or.inr (by decide))
  · exact (C9_add_id_validation storeW "courses" [[("dept", Value.str "a")]]
      InsightDatasetKind.Courses).2.1 (by decide) (by decide)

/-- C10: every `addDataset` call whose kind is not `Courses` (notably
`Rooms`) is rejected with an error before the dataset content is read — the
outcome does not depend on the records at all — and no dataset is added
(an error carries no updated store). -/
theorem C10_kind_rejected (store : Datasets) (id : String) (records : List Record)
    (kind : InsightDatasetKind) (hk : kind ≠ InsightDatasetKind.Courses) :
    (∃ e, addDataset store id records kind = .error e) ∧
    (∀ records', addDataset store id records kind = addDataset store id records' kind) := by
  constructor
  · unfold addDataset
    split
    · exact ⟨_, rfl⟩
    · split
      · exact ⟨_, rfl⟩
      · exact ⟨_, rfl⟩
  · intro records'
    unfold addDataset
    split
    · rfl
    · split
      · rfl
      · rfl

/-- Witness for C10: adding with kind `Rooms` at a concrete store. -/
theorem C10_kind_rejected_witness :
    (∃ e, addDataset storeW "rooms" [[("seats", Value.num 1)]] InsightDatasetKind.Rooms =
      .error e) ∧
    (∀ records', addDataset storeW "rooms" [[("seats", Value.num 1)]] InsightDatasetKind.Rooms =
      addDataset storeW "rooms" records' InsightDatasetKind.Rooms) :=
  C10_kind_rejected storeW "rooms" [[("seats", Value.num 1)]] InsightDatasetKind.Rooms
    (by decide)

theorem validateColumns_error (id : String) :
    ∀ cols, (∃ c ∈ cols, ¬ goodCol id c) → ∃ e, validateColumns id cols = .error e := by
  intro cols
  induction cols with
  | nil => rintro ⟨c, hc, _⟩; cases hc
  | cons c rest ih =>
      rintro ⟨c', hc', hbad⟩
      by_cases hp : isQualifiedKey (jsToStr c) = true
      · cases c with
        | str s =>
            have hps : isQualifiedKey s = true := by simpa [jsToStr] using hp
            by_cases hpre : splitFirst s = id
            · have hgood : goodCol id (Json.str s) := ⟨s, rfl, hps, hpre⟩
              rcases List.mem_cons.mp hc' with rfl | hmem
              · exact absurd hgood hbad
              · obtain ⟨e, he⟩ := ih ⟨c', hmem, hbad⟩
                refine ⟨e, ?_⟩
                simp [validateColumns, jsToStr, hps, hpre, he]
            · refine ⟨QErr.insight "Cannot query from two datasets", ?_⟩
              simp [validateColumns, jsToStr, hps, hpre]
        | obj kvs =>
            refine ⟨QErr.insight "split is not a function", ?_⟩
            simp [validateColumns, hp]
        | arr xs =>
            refine ⟨QErr.insight "split is not a function", ?_⟩
            simp [validateColumns, hp]
        | num n =>
            refine ⟨QErr.insight "split is not a function", ?_⟩
            simp [validateColumns, hp]
        | bool b =>
            refine ⟨QErr.insight "split is not a function", ?_⟩
            simp [validateColumns, hp]
        | null =>
            refine ⟨QErr.insight "split is not a function", ?_⟩
            simp [validateColumns, hp]
      · have hp' : isQualifiedKey (jsToStr c) = false := by simpa using hp
        refine ⟨QErr.insight "Invalid key format in columns", ?_⟩
        simp [validateColumns, hp']

/-- C5 (amended): a column that fails the qualified-name pattern or targets
a different dataset id fails `selectColumns` for every candidate index set,
including the empty one; a column naming a field absent from the records
fails it whenever the candidate set is non-empty (the schema check runs per
projected row, so an empty candidate set yields an empty result instead of
an error — the counterexample). -/
theorem C5_column_validation (records : List Record) (courseSet : Finset Nat)
    (id : String) :
    (∀ colsJ, (∃ c ∈ colsJ, ¬ goodCol id c) →
      ∃ e, selectColumns records courseSet (.arr colsJ) id = .error e) ∧
    (∀ s, isQualifiedKey s = true → splitFirst s = id →
      (∀ i ∈ courseSet, ∃ r, records.get? i = some r ∧ recordGet r (splitSecond s) = none) →
      courseSet.Nonempty →
      selectColumns records courseSet (.arr [.str s]) id =
        .error (.insight ("Key in columns not exists in dataset: " ++ s))) := by
  constructor
  · intro colsJ hbad
    obtain ⟨e, he⟩ := validateColumns_error id colsJ hbad
    exact ⟨e, by simp [selectColumns, jsIterate, he]⟩
  · intro s hpat hpre hmiss hne
    have hval : validateColumns id [Json.str s] = .ok () := by
      simp [validateColumns, jsToStr, hpat, hpre]
    obtain ⟨i0, hi0⟩ := hne
    obtain ⟨r, hr, _⟩ := hmiss i0 hi0
    have hi0len : i0 < records.length := by
      rcases List.get?_eq_some.mp hr with ⟨h, _⟩
      exact h
    have hmem : i0 ∈ (List.range records.length).filter (fun i => i ∈ courseSet) :=
      List.mem_filter.mpr ⟨List.mem_range.mpr hi0len, by simpa using hi0⟩
    obtain ⟨j, t, hjt⟩ :
        ∃ j t, (List.range records.length).filter (fun i => i ∈ courseSet) = j :: t := by
      cases hL : (List.range records.length).filter (fun i => i ∈ courseSet) with
      | nil => rw [hL] at hmem; cases hmem
      | cons j t => exact ⟨j, t, rfl⟩
    have hjmem : j ∈ courseSet := by
      have : j ∈ (List.range records.length).filter (fun i => i ∈ courseSet) :=
        hjt ▸ List.mem_cons_self j t
      simpa using (List.mem_filter.mp this).2
    obtain ⟨rj, hrj, hrjnone⟩ := hmiss j hjmem
    have hrj' : records[j]? = some rj := by simpa [List.get?_eq_getElem?] using hrj
    simp [selectColumns, jsIterate, hval, hjt, buildRows, buildRow, hrj',
      buildRowFields, hrjnone]

/-- Witness for C5 (amended) at concrete inputs: a malformed column name, a
cross-dataset column, and an absent field with one candidate row. -/
theorem C5_column_validation_witness :
    (∃ e, selectColumns recsAvg {0} (.arr [.str "bad"]) "courses" = .error e) ∧
    (∃ e, selectColumns recsAvg {0} (.arr [.str "rooms_seats"]) "courses" = .error e) ∧
    (selectColumns recsAvg {0} (.arr [.str "courses_nope"]) "courses" =
      .error (.insight ("Key in columns not exists in dataset: " ++ "courses_nope"))) := by
  refine ⟨?_, ?_, ?_⟩
  · exact (C5_column_validation recsAvg {0} "courses").1 [.str "bad"]
      ⟨.str "bad", by simp, by rintro ⟨s, hs, hq, _⟩; cases hs; exact absurd hq (by decide)⟩
  · exact (C5_column_validation recsAvg {0} "courses").1 [.str "rooms_seats"]
      ⟨.str "rooms_seats", by simp,
        by rintro ⟨s, hs, _, hid⟩; cases hs; exact absurd hid (by decide)⟩
  · exact (C5_column_validation recsAvg {0} "courses").2 "courses_nope" (by decide) (by decide)
      (by
        intro i hi
        have : i = 0 := by simpa using hi
        subst this
        exact ⟨[("dept", Value.str "a"), ("avg", Value.num 95)], by decide, by decide⟩)
      ⟨0, by decide⟩

/-- C5 counterexample: with an empty candidate set (the `WHERE` is
`NOT {}`), a column naming the absent field `courses_nope` does NOT fail:
`performQuery` succeeds with zero rows, while the claim demands an
`UnknownFieldError` for every candidate index set including the empty one. -/
theorem C5_empty_set_counterexample :
    performQuery storeW (.obj [("WHERE", .obj [("NOT", .obj [])]),
      ("OPTIONS", .obj [("COLUMNS", .arr [.str "courses_nope"])])]) = .ok [] := by
  simp [performQuery, jsKeys, jsProp, jsonMemberD, jsonMember, parseIndex, digitsToNat,
    natToStr, natToCharsAux, Datasets.containsDataset, Datasets.getDatasetD, storeW, recsAvg,
    findCourses, jsonHasBrace, SetUtils.complementary, selectColumns, jsIterate, validateColumns,
    isQualifiedKey, splitChar, splitFirst, splitSecond, jsToStr, buildRows, buildRow,
    buildRowFields, recordGet]

/-- C4: the target dataset id is resolved as the portion of the first
`COLUMNS` entry before its first underscore (`split("_")[0]`), and when no
dataset with that id is loaded the query fails with the dataset-not-found
error. -/
theorem C4_dataset_resolution (store : Datasets) (w : Json)
    (optkvs : List (String × Json)) (colsJ restJ : List Json) (c0 : String)
    (hopt : jsonMember (Json.obj optkvs) "COLUMNS" = some (.arr colsJ))
    (hcols : colsJ = .str c0 :: restJ)
    (hnf : store.containsDataset (splitFirst c0) = false) :
    performQuery store (.obj [("WHERE", w), ("OPTIONS", .obj optkvs)]) =
      .error (.insight "Dataset not exists") := by
  subst hcols
  have hopt2 : (optkvs.find? (fun p => p.1 == "COLUMNS")).map (fun p => p.2) =
      some (Json.arr (.str c0 :: restJ)) := by
    simpa [jsonMember] using hopt
  simp [performQuery, jsKeys, jsProp, jsonMemberD, jsonMember, parseIndex,
    digitsToNat, hopt2, hnf]

/-- Witness for C4: a store holding only `courses` and a query whose first
column is `rooms_seats`. -/
theorem C4_dataset_resolution_witness :
    performQuery storeW (.obj [("WHERE", .obj []),
      ("OPTIONS", .obj [("COLUMNS", .arr [.str "rooms_seats"])])]) =
      .error (.insight "Dataset not exists") :=
  C4_dataset_resolution storeW (.obj []) [("COLUMNS", .arr [.str "rooms_seats"])]
    [.str "rooms_seats"] [] "rooms_seats" rfl rfl (by decide)

/-- C6: with a well-formed query whose pipeline succeeds (no `ORDER`),
`performQuery` fails with `ResultTooLargeError` exactly when the projected
row count exceeds 5000; at or below 5000 it returns all the rows. -/
theorem C6_result_cap (store : Datasets) (w : Json) (colsJ restJ : List Json)
    (c0 : String) (cs : Finset Nat) (rows : List Row)
    (hcols : colsJ = .str c0 :: restJ)
    (hid : store.containsDataset (splitFirst c0) = true)
    (hfc : findCourses (store.getDatasetD (splitFirst c0)) (splitFirst c0) w = .ok cs)
    (hsel : selectColumns (store.getDatasetD (splitFirst c0)) cs (.arr colsJ)
      (splitFirst c0) = .ok rows) :
    (performQuery store (.obj [("WHERE", w), ("OPTIONS", .obj [("COLUMNS", .arr colsJ)])]) =
        .error .resultTooLarge ↔ 5000 < rows.length) ∧
    (rows.length ≤ 5000 →
      performQuery store (.obj [("WHERE", w), ("OPTIONS", .obj [("COLUMNS", .arr colsJ)])]) =
        .ok rows) := by
  subst hcols
  have main : performQuery store
      (.obj [("WHERE", w), ("OPTIONS", .obj [("COLUMNS", .arr (.str c0 :: restJ))])]) =
      if 5000 < rows.length then .error .resultTooLarge else .ok rows := by
    simp [performQuery, jsKeys, jsProp, jsonMemberD, jsonMember, parseIndex,
      hid, hfc, hsel, natToStr, natToCharsAux]
  constructor
  · rw [main]
    by_cases hl : 5000 < rows.length
    · simp [hl]
    · simp [hl]
  · intro hle
    rw [main]
    simp [Nat.not_lt.mpr hle]

/-- Witness for C6: the three-record store, an empty `WHERE` and one
column; three rows are within the cap, so the query succeeds with them. -/
theorem C6_result_cap_witness :
    (performQuery storeW (.obj [("WHERE", .obj []),
        ("OPTIONS", .obj [("COLUMNS", .arr [.str "courses_dept"])])]) =
      .error .resultTooLarge ↔
      5000 < ([[("courses_dept", Value.str "a")], [("courses_dept", Value.str "b")],
        [("courses_dept", Value.str "c")]] : List Row).length) ∧
    (([[("courses_dept", Value.str "a")], [("courses_dept", Value.str "b")],
        [("courses_dept", Value.str "c")]] : List Row).length ≤ 5000 →
      performQuery storeW (.obj [("WHERE", .obj []),
        ("OPTIONS", .obj [("COLUMNS", .arr [.str "courses_dept"])])]) =
      .ok [[("courses_dept", Value.str "a")], [("courses_dept", Value.str "b")],
        [("courses_dept", Value.str "c")]]) := by
  refine C6_result_cap storeW (.obj []) [.str "courses_dept"] [] "courses_dept"
    (Finset.range 3)
    [[("courses_dept", Value.str "a")], [("courses_dept", Value.str "b")],
      [("courses_dept", Value.str "c")]]
    rfl (by decide) ?_ ?_
  · simp [findCourses, jsonHasBrace, storeW, recsAvg, Datasets.getDatasetD, splitFirst, splitChar]
  · simp [selectColumns, jsIterate, validateColumns, isQualifiedKey, splitChar,
      splitFirst, splitSecond, jsToStr, buildRows, buildRow, buildRowFields,
      recordGet, storeW, recsAvg, Datasets.getDatasetD]

/-- C7: with a successful pipeline, an `OPTIONS` with `ORDER` and any third
key fails, an `ORDER` value absent from `COLUMNS` fails, and without
`ORDER` any second key fails — each with the corresponding shape error and
no rows. -/
theorem C7_options_validation (store : Datasets) (w : Json) (colsJ restJ : List Json)
    (c0 : String) (cs : Finset Nat) (rows : List Row)
    (hcols : colsJ = .str c0 :: restJ)
    (hid : store.containsDataset (splitFirst c0) = true)
    (hfc : findCourses (store.getDatasetD (splitFirst c0)) (splitFirst c0) w = .ok cs)
    (hsel : selectColumns (store.getDatasetD (splitFirst c0)) cs (.arr colsJ)
      (splitFirst c0) = .ok rows) :
    (∀ ov k3 v3, performQuery store (.obj [("WHERE", w), ("OPTIONS",
        .obj [("COLUMNS", .arr colsJ), ("ORDER", ov), (k3, v3)])]) =
      .error (.insight "Invalid key in column")) ∧
    (∀ ov, colsJ.any (fun e => jsonPrimEq e ov) = false →
      performQuery store (.obj [("WHERE", w), ("OPTIONS",
        .obj [("COLUMNS", .arr colsJ), ("ORDER", ov)])]) =
      .error (.insight "Value of ORDER not exists in COLUMNS")) ∧
    (∀ k2 v2, k2 ≠ "ORDER" →
      performQuery store (.obj [("WHERE", w), ("OPTIONS",
        .obj [("COLUMNS", .arr colsJ), (k2, v2)])]) =
      .error (.insight "Invalid key in column")) := by
  subst hcols
  refine ⟨?_, ?_, ?_⟩
  · intro ov k3 v3
    simp [performQuery, jsKeys, jsProp, jsonMemberD, jsonMember, parseIndex,
      hid, hfc, hsel]
  · intro ov hmem
    simp [performQuery, jsKeys, jsProp, jsonMemberD, jsonMember, parseIndex,
      hid, hfc, hsel, jsIncludes, hmem]
  · intro k2 v2 hk2
    have hk2s : "ORDER" ≠ k2 := Ne.symm hk2
    simp [performQuery, jsKeys, jsProp, jsonMemberD, jsonMember, parseIndex,
      hid, hfc, hsel, hk2, hk2s]

/-- Witness for C7 at concrete queries: an extra `OPTIONS` key next to
`ORDER`, an `ORDER` value outside `COLUMNS`, and an extra key without
`ORDER`. -/
theorem C7_options_validation_witness :
    (performQuery storeW (.obj [("WHERE", .obj []), ("OPTIONS",
        .obj [("COLUMNS", .arr [.str "courses_dept"]), ("ORDER", .str "courses_dept"),
          ("EXTRA", .null)])]) = .error (.insight "Invalid key in column")) ∧
    (performQuery storeW (.obj [("WHERE", .obj []), ("OPTIONS",
        .obj [("COLUMNS", .arr [.str "courses_dept"]), ("ORDER", .str "courses_avg")])]) =
      .error (.insight "Value of ORDER not exists in COLUMNS")) ∧
    (performQuery storeW (.obj [("WHERE", .obj []), ("OPTIONS",
        .obj [("COLUMNS", .arr [.str "courses_dept"]), ("EXTRA", .null)])]) =
      .error (.insight "Invalid key in column")) := by
  have hfc : findCourses (storeW.getDatasetD (splitFirst "courses_dept"))
      (splitFirst "courses_dept") (.obj []) = .ok (Finset.range 3) := by
    simp [findCourses, jsonHasBrace, storeW, recsAvg, Datasets.getDatasetD, splitFirst, splitChar]
  have hsel : selectColumns (storeW.getDatasetD (splitFirst "courses_dept"))
      (Finset.range 3) (.arr [.str "courses_dept"]) (splitFirst "courses_dept") = .ok
      [[("courses_dept", Value.str "a")], [("courses_dept", Value.str "b")],
        [("courses_dept", Value.str "c")]] := by
    simp [selectColumns, jsIterate, validateColumns, isQualifiedKey, splitChar,
      splitFirst, splitSecond, jsToStr, buildRows, buildRow, buildRowFields,
      recordGet, storeW, recsAvg, Datasets.getDatasetD]
  have h := C7_options_validation storeW (.obj []) [.str "courses_dept"] [] "courses_dept"
    (Finset.range 3)
    [[("courses_dept", Value.str "a")], [("courses_dept", Value.str "b")],
      [("courses_dept", Value.str "c")]]
    rfl (by decide) hfc hsel
  exact ⟨h.1 (.str "courses_dept") "EXTRA" .null, h.2.1 (.str "courses_avg") (by decide),
    h.2.2 "EXTRA" .null (by decide)⟩

theorem insertSorted_perm (le : Row → Row → Bool) (a : Row) (l : List Row) :
    (insertSorted le a l).Perm (a :: l) := by
  induction l with
  | nil => exact List.Perm.refl _
  | cons b bs ih =>
      unfold insertSorted
      split
      · exact List.Perm.refl _
      · exact (ih.cons b).trans (List.Perm.swap a b bs)

theorem sortRows_perm (le : Row → Row → Bool) (l : List Row) :
    (sortRows le l).Perm l := by
  induction l with
  | nil => exact List.Perm.refl _
  | cons a as ih =>
      exact (insertSorted_perm le a (sortRows le as)).trans (ih.cons a)

theorem insertSorted_pairwise (le : Row → Row → Bool) (a : Row) (l : List Row)
    (hl : l.Pairwise (fun x y => le x y = true))
    (htot : ∀ b ∈ l, le a b = true ∨ le b a = true)
    (htr : ∀ b ∈ l, ∀ c ∈ l, le a b = true → le b c = true → le a c = true) :
    (insertSorted le a l).Pairwise (fun x y => le x y = true) := by
  induction l with
  | nil => simp [insertSorted]
  | cons b bs ih =>
      unfold insertSorted
      split
      · next hab =>
          refine List.Pairwise.cons ?_ hl
          intro x hx
          rcases List.mem_cons.mp hx with rfl | hxbs
          · exact hab
          · exact htr b (List.mem_cons_self b bs) x (List.mem_cons_of_mem b hxbs) hab
              ((List.pairwise_cons.mp hl).1 x hxbs)
      · next hab =>
          have hba : le b a = true := by
            rcases htot b (List.mem_cons_self b bs) with h | h
            · exact absurd h (by simpa using hab)
            · exact h
          refine List.Pairwise.cons ?_ (ih (List.pairwise_cons.mp hl).2 ?_ ?_)
          · intro x hx
            have hx' := (insertSorted_perm le a bs).mem_iff.mp hx
            rcases List.mem_cons.mp hx' with rfl | hxbs
            · exact hba
            · exact (List.pairwise_cons.mp hl).1 x hxbs
          · intro c hc
            exact htot c (List.mem_cons_of_mem b hc)
          · intro c hc d hd
            exact htr c (List.mem_cons_of_mem b hc) d (List.mem_cons_of_mem b hd)

theorem sortRows_pairwise (le : Row → Row → Bool) (l : List Row)
    (htot : ∀ a ∈ l, ∀ b ∈ l, le a b = true ∨ le b a = true)
    (htr : ∀ a ∈ l, ∀ b ∈ l, ∀ c ∈ l, le a b = true → le b c = true → le a c = true) :
    (sortRows le l).Pairwise (fun x y => le x y = true) := by
  induction l with
  | nil => simp [sortRows]
  | cons a as ih =>
      unfold sortRows
      apply insertSorted_pairwise
      · exact ih
          (fun x hx y hy => htot x (List.mem_cons_of_mem a hx) y (List.mem_cons_of_mem a hy))
          (fun x hx y hy z hz => htr x (List.mem_cons_of_mem a hx) y (List.mem_cons_of_mem a hy)
            z (List.mem_cons_of_mem a hz))
      · intro b hb
        have hb' := (sortRows_perm le as).mem_iff.mp hb
        exact htot a (List.mem_cons_self a as) b (List.mem_cons_of_mem a hb')
      · intro b hb c hc
        have hb' := (sortRows_perm le as).mem_iff.mp hb
        have hc' := (sortRows_perm le as).mem_iff.mp hc
        exact htr a (List.mem_cons_self a as) b (List.mem_cons_of_mem a hb')
          c (List.mem_cons_of_mem a hc')

theorem ruleStr_le_iff (a b : List Char) : ruleStr a b ≤ 0 ↔ codePointLe a b = true := by
  induction a generalizing b with
  | nil => cases b <;> simp [ruleStr, codePointLe]
  | cons x xs ih =>
      cases b with
      | nil => simp [ruleStr, codePointLe]
      | cons y ys =>
          by_cases h1 : x.toNat = y.toNat
          · simp [ruleStr, codePointLe, h1, ih]
          · by_cases h2 : x.toNat < y.toNat
            · have h3 : ¬ x.toNat > y.toNat := by omega
              simp [ruleStr, codePointLe, h1, h2, h3]
            · have h3 : x.toNat > y.toNat := by omega
              simp [ruleStr, codePointLe, h1, h2, h3]

theorem codePointLe_cons_iff (x y : Char) (xs ys : List Char) :
    codePointLe (x :: xs) (y :: ys) = true ↔
      (x.toNat < y.toNat ∨ (x.toNat = y.toNat ∧ codePointLe xs ys = true)) := by
  by_cases h1 : x.toNat < y.toNat
  · simp [codePointLe, h1]
  · by_cases h2 : x.toNat = y.toNat
    · simp [codePointLe, h1, h2]
    · simp [codePointLe, h1, h2]

theorem codePointLe_total (a b : List Char) :
    codePointLe a b = true ∨ codePointLe b a = true := by
  induction a generalizing b with
  | nil => left; simp [codePointLe]
  | cons x xs ih =>
      cases b with
      | nil => right; simp [codePointLe]
      | cons y ys =>
          by_cases h1 : x.toNat = y.toNat
          · rcases ih ys with h | h
            · left; exact (codePointLe_cons_iff x y xs ys).mpr (Or.inr ⟨h1, h⟩)
            · right; exact (codePointLe_cons_iff y x ys xs).mpr (Or.inr ⟨h1.symm, h⟩)
          · by_cases h2 : x.toNat < y.toNat
            · left; exact (codePointLe_cons_iff x y xs ys).mpr (Or.inl h2)
            · right; exact (codePointLe_cons_iff y x ys xs).mpr (Or.inl (by omega))

theorem codePointLe_trans (a b c : List Char) (hab : codePointLe a b = true)
    (hbc : codePointLe b c = true) : codePointLe a c = true := by
  induction a generalizing b c with
  | nil => simp [codePointLe]
  | cons x xs ih =>
      cases b with
      | nil => simp [codePointLe] at hab
      | cons y ys =>
          cases c with
          | nil => simp [codePointLe] at hbc
          | cons z zs =>
              rcases (codePointLe_cons_iff x y xs ys).mp hab with h1 | ⟨h1, h1'⟩ <;>
                rcases (codePointLe_cons_iff y z ys zs).mp hbc with h2 | ⟨h2, h2'⟩
              · exact (codePointLe_cons_iff x z xs zs).mpr (Or.inl (by omega))
              · exact (codePointLe_cons_iff x z xs zs).mpr (Or.inl (by omega))
              · exact (codePointLe_cons_iff x z xs zs).mpr (Or.inl (by omega))
              · exact (codePointLe_cons_iff x z xs zs).mpr
                  (Or.inr ⟨by omega, ih ys zs h1' h2'⟩)

theorem rowLe_num_iff (ord : String) (a b : Row) (x y : Int)
    (ha : recordGet a ord = some (.num x)) (hb : recordGet b ord = some (.num y)) :
    rowLe ord a b = true ↔ x ≤ y := by
  simp only [rowLe, rule, ha, hb, decide_eq_true_eq]
  split_ifs with h1 h2 <;> constructor <;> intro h <;> omega

theorem rowLe_str_iff (ord : String) (a b : Row) (u v : String)
    (ha : recordGet a ord = some (.str u)) (hb : recordGet b ord = some (.str v)) :
    rowLe ord a b = true ↔ codePointLe u.data v.data = true := by
  simp [rowLe, rule, ha, hb, decide_eq_true_eq, ruleStr_le_iff]

/-- C8: when `ORDER` is present (and valid), the rows `performQuery`
returns are the projected rows reordered ascending by the `ORDER` column —
numeric values by magnitude, strings by code-point sequence with a shorter
prefix first (`specLeB`). -/
theorem C8_order_sorting (store : Datasets) (w : Json) (colsJ restJ : List Json)
    (c0 okey : String) (cs : Finset Nat) (rows : List Row)
    (hcols : colsJ = .str c0 :: restJ)
    (hid : store.containsDataset (splitFirst c0) = true)
    (hfc : findCourses (store.getDatasetD (splitFirst c0)) (splitFirst c0) w = .ok cs)
    (hsel : selectColumns (store.getDatasetD (splitFirst c0)) cs (.arr colsJ)
      (splitFirst c0) = .ok rows)
    (hmem : colsJ.any (fun e => jsonPrimEq e (Json.str okey)) = true)
    (hcap : rows.length ≤ 5000)
    (hhom : (∀ r ∈ rows, ∃ x, recordGet r okey = some (Value.num x)) ∨
            (∀ r ∈ rows, ∃ u, recordGet r okey = some (Value.str u))) :
    ∃ out, performQuery store (.obj [("WHERE", w), ("OPTIONS",
        .obj [("COLUMNS", .arr colsJ), ("ORDER", .str okey)])]) = .ok out ∧
      out.Perm rows ∧ out.Pairwise (fun a b => specLeB okey a b = true) := by
  subst hcols
  have hlen : (sortRows (rowLe okey) rows).length = rows.length :=
    (sortRows_perm (rowLe okey) rows).length_eq
  have hq : performQuery store (.obj [("WHERE", w), ("OPTIONS",
      .obj [("COLUMNS", .arr (.str c0 :: restJ)), ("ORDER", .str okey)])]) =
      .ok (sortRows (rowLe okey) rows) := by
    simp [performQuery, jsKeys, jsProp, jsonMemberD, jsonMember, parseIndex, digitsToNat,
      hid, hfc, hsel, jsIncludes, hmem, jsToStr, hlen, Nat.not_lt.mpr hcap]
  refine ⟨_, hq, sortRows_perm _ _, ?_⟩
  have hpw : (sortRows (rowLe okey) rows).Pairwise (fun x y => rowLe okey x y = true) := by
    apply sortRows_pairwise
    · intro a ha b hb
      rcases hhom with hnum | hstr
      · obtain ⟨x, hx⟩ := hnum a ha
        obtain ⟨y, hy⟩ := hnum b hb
        rcases le_total x y with h | h
        · exact Or.inl ((rowLe_num_iff okey a b x y hx hy).mpr h)
        · exact Or.inr ((rowLe_num_iff okey b a y x hy hx).mpr h)
      · obtain ⟨u, hu⟩ := hstr a ha
        obtain ⟨v, hv⟩ := hstr b hb
        rcases codePointLe_total u.data v.data with h | h
        · exact Or.inl ((rowLe_str_iff okey a b u v hu hv).mpr h)
        · exact Or.inr ((rowLe_str_iff okey b a v u hv hu).mpr h)
    · intro a ha b hb c hc hab hbc
      rcases hhom with hnum | hstr
      · obtain ⟨x, hx⟩ := hnum a ha
        obtain ⟨y, hy⟩ := hnum b hb
        obtain ⟨z, hz⟩ := hnum c hc
        exact (rowLe_num_iff okey a c x z hx hz).mpr
          (le_trans ((rowLe_num_iff okey a b x y hx hy).mp hab)
            ((rowLe_num_iff okey b c y z hy hz).mp hbc))
      · obtain ⟨u, hu⟩ := hstr a ha
        obtain ⟨v, hv⟩ := hstr b hb
        obtain ⟨t, ht⟩ := hstr c hc
        exact (rowLe_str_iff okey a c u t hu ht).mpr
          (codePointLe_trans u.data v.data t.data
            ((rowLe_str_iff okey a b u v hu hv).mp hab)
            ((rowLe_str_iff okey b c v t hv ht).mp hbc))
  refine List.Pairwise.imp_of_mem ?_ hpw
  intro a b ha hb hab
  have ha' : a ∈ rows := (sortRows_perm (rowLe okey) rows).mem_iff.mp ha
  have hb' : b ∈ rows := (sortRows_perm (rowLe okey) rows).mem_iff.mp hb
  rcases hhom with hnum | hstr
  · obtain ⟨x, hx⟩ := hnum a ha'
    obtain ⟨y, hy⟩ := hnum b hb'
    have h := (rowLe_num_iff okey a b x y hx hy).mp hab
    simp [specLeB, hx, hy, h]
  · obtain ⟨u, hu⟩ := hstr a ha'
    obtain ⟨v, hv⟩ := hstr b hb'
    have h := (rowLe_str_iff okey a b u v hu hv).mp hab
    simp [specLeB, hu, hv, h]

/-- Witness for C8: sorting the three-record store by `courses_avg`
ascending (the spec's `[95, 70, 90]` example). -/
theorem C8_order_sorting_witness :
    ∃ out, performQuery storeW (.obj [("WHERE", .obj []), ("OPTIONS",
        .obj [("COLUMNS", .arr [.str "courses_avg"]), ("ORDER", .str "courses_avg")])]) =
      .ok out ∧
      out.Perm [[("courses_avg", Value.num 95)], [("courses_avg", Value.num 70)],
        [("courses_avg", Value.num 90)]] ∧
      out.Pairwise (fun a b => specLeB "courses_avg" a b = true) := by
  have hfc : findCourses (storeW.getDatasetD (splitFirst "courses_avg"))
      (splitFirst "courses_avg") (.obj []) = .ok (Finset.range 3) := by
    simp [findCourses, jsonHasBrace, storeW, recsAvg, Datasets.getDatasetD, splitFirst, splitChar]
  have hsel : selectColumns (storeW.getDatasetD (splitFirst "courses_avg"))
      (Finset.range 3) (.arr [.str "courses_avg"]) (splitFirst "courses_avg") = .ok
      [[("courses_avg", Value.num 95)], [("courses_avg", Value.num 70)],
        [("courses_avg", Value.num 90)]] := by
    simp [selectColumns, jsIterate, validateColumns, isQualifiedKey, splitChar,
      splitFirst, splitSecond, jsToStr, buildRows, buildRow, buildRowFields,
      recordGet, storeW, recsAvg, Datasets.getDatasetD]
  refine C8_order_sorting storeW (.obj []) [.str "courses_avg"] [] "courses_avg"
    "courses_avg" (Finset.range 3)
    [[("courses_avg", Value.num 95)], [("courses_avg", Value.num 70)],
      [("courses_avg", Value.num 90)]]
    rfl (by decide) hfc hsel (by decide) (by decide) ?_
  left
  intro r hr
  simp only [List.mem_cons, List.not_mem_nil, or_false] at hr
  rcases hr with rfl | rfl | rfl
  · exact ⟨95, by decide⟩
  · exact ⟨70, by decide⟩
  · exact ⟨90, by decide⟩
